import Mathlib

/-!
Formal model of the proxy-pilot command broker (src/main.py) and verification
of the specification claims about it.

The program is a Flask application whose whole observable state is the JSON
data file (`commands_data.json`): every HTTP handler reloads the file, operates
on the loaded data, and (for mutating handlers) rewrites the file in full.
We embed the file contents as an explicit `Option Data` value threaded through
the handlers (`none` models a missing or unreadable file), JSON values as an
inductive `Json` type with Python truthiness, and each handler as a pure
function from the request body and the file contents to a response and the new
file contents.  A `wok : Bool` parameter models whether the file write inside
`save_commands` succeeds (Python catches and logs a failed write).
-/

/-- A JSON value, as handled by the Python code (dicts keep key order). -/
inductive Json where
  | null : Json
  | bool : Bool → Json
  | num : Int → Json
  | str : String → Json
  | arr : List Json → Json
  | obj : List (String × Json) → Json
  deriving Repr

mutual

/-- Structural equality of JSON values, mirroring Python `==` on parsed JSON. -/
def Json.beq : Json → Json → Bool
  | .null, .null => true
  | .bool a, .bool b => a == b
  | .num a, .num b => a == b
  | .str a, .str b => a == b
  | .arr a, .arr b => Json.beqList a b
  | .obj a, .obj b => Json.beqFields a b
  | _, _ => false

/-- Elementwise equality of JSON arrays. -/
def Json.beqList : List Json → List Json → Bool
  | [], [] => true
  | a :: as, b :: bs => Json.beq a b && Json.beqList as bs
  | _, _ => false

/-- Fieldwise equality of JSON objects. -/
def Json.beqFields : List (String × Json) → List (String × Json) → Bool
  | [], [] => true
  | (k, v) :: as, (l, w) :: bs => k == l && Json.beq v w && Json.beqFields as bs
  | _, _ => false

end

instance : BEq Json := ⟨Json.beq⟩

/-- Python truthiness (`if not x`) of a JSON value: `None`, `False`, `0`,
`""`, `[]` and the empty dict are falsy, everything else truthy. -/
def Json.truthy : Json → Bool
  | .null => false
  | .bool b => b
  | .num n => n != 0
  | .str s => s != ""
  | .arr xs => !xs.isEmpty
  | .obj fs => !fs.isEmpty

/-- `dict.get(key)` on a JSON object: the first binding of `key`, if any.
On a non-object the Python code would raise `AttributeError`; callers below
model that path separately (it falls into the generic 500 handler). -/
def Json.get : Json → String → Option Json
  | .obj fs, k => (fs.find? (fun p => p.1 == k)).map (fun p => p.2)
  | _, _ => none

/-- A stored command record, as created by `add_command` in src/main.py:
`{'id': str(uuid4()), 'command': ..., 'params': ..., 'time_created': ...}`,
with `time_started` attached when the command is moved to history. -/
structure Command where
  id : String
  command : Json
  params : Json
  time_created : Nat
  time_started : Option Nat
  deriving Repr

/-- The persisted data shape: `{'new_commands': [...], 'history': [...]}`. -/
structure Data where
  new_commands : List Command
  history : List Command
  deriving Repr

/-- `MAX_HISTORY_SIZE = 3` (src/main.py line 11). -/
def MAX_HISTORY_SIZE : Nat := 3

/-- `load_commands` (src/main.py lines 14-21): read the data file; on
`FileNotFoundError`/`JSONDecodeError` (modelled by `none`) fall back to the
empty structure `{'new_commands': [], 'history': []}`. -/
def load_commands (file : Option Data) : Data :=
  file.getD ⟨[], []⟩

/-- `save_commands` (src/main.py lines 23-29): rewrite the file in full with
`data`; a write failure (`wok = false`) is caught and logged, leaving the old
file contents in place. -/
def save_commands (d : Data) (wok : Bool) (file : Option Data) : Option Data :=
  if wok then some d else file

/-- The response of the `POST /add_command` handler. -/
inductive AddResult where
  | invalidRequest      -- 400 INVALID_REQUEST: missing/falsy JSON body
  | internalError       -- 500: body is a truthy JSON non-object (`.get` raises)
  | missingCommand      -- 400 MISSING_COMMAND: `command` absent or falsy
  | invalidParams       -- 400 INVALID_PARAMS: `params` supplied, not a dict
  | success (c : Command)  -- 201 with the created command
  deriving Repr

/-- The request-validation part of `add_command` (src/main.py lines 80-108),
factored out of the handler: which response branch the body selects, and on
success the extracted `command` and `params` values (`params` defaulting to
the empty dict). -/
def add_check (body : Option Json) : AddResult × Json × Json :=
  match body with
  | none => (.invalidRequest, .null, .null)
  | some b =>
    if !b.truthy then (.invalidRequest, .null, .null)
    else
      match b with
      | .obj fs =>
        match (Json.obj fs).get "command" with
        | none => (.missingCommand, .null, .null)
        | some cv =>
          if !cv.truthy then (.missingCommand, .null, .null)
          else
            match ((Json.obj fs).get "params").getD (.obj []) with
            | .obj ps => (.success ⟨"", cv, .obj ps, 0, none⟩, cv, .obj ps)
            | _ => (.invalidParams, .null, .null)
      | _ => (.internalError, .null, .null)

/-- `add_command` (src/main.py lines 76-140): validate the body, then load the
file, append the freshly created command to `new_commands` and save.  `fresh`
is the generated uuid string and `now` the creation timestamp. -/
def add_command (body : Option Json) (file : Option Data) (fresh : String)
    (now : Nat) (wok : Bool) : AddResult × Option Data :=
  match add_check body with
  | (.success _, cv, pv) =>
    let c : Command := ⟨fresh, cv, pv, now, none⟩
    let d := load_commands file
    let d' : Data := ⟨d.new_commands ++ [c], d.history⟩
    (.success c, save_commands d' wok file)
  | (r, _, _) => (r, file)

/-- The response of the `POST /move_to_history` handler. -/
inductive MoveResult where
  | invalidRequest      -- 400 INVALID_REQUEST: missing/falsy JSON body
  | internalError       -- 500: body is a truthy JSON non-object
  | missingId           -- 400 MISSING_COMMAND_ID: `id` absent or falsy
  | notFound (available : List String)  -- 404 COMMAND_NOT_FOUND
  | success (c : Command) (historySize : Nat)  -- 200
  deriving Repr

/-- The search-and-move core of `move_to_history` (src/main.py lines 210-234):
commands whose `id` equals the requested one are removed from `new_commands`;
the last match (the loop overwrites `command_to_move`) gets `time_started` and
is inserted at the front of `history`, which is then truncated to its first
`MAX_HISTORY_SIZE` entries.  `none` as second component means nothing was
found, so nothing is saved. -/
def move_core (d : Data) (cid : Json) (now : Nat) : MoveResult × Option Data :=
  match (d.new_commands.filter (fun c => Json.str c.id == cid)).getLast? with
  | none => (.notFound (d.new_commands.map (fun c => c.id)), none)
  | some c =>
    (.success { c with time_started := some now }
       (({ c with time_started := some now } :: d.history).take MAX_HISTORY_SIZE).length,
     some ⟨d.new_commands.filter (fun c => !(Json.str c.id == cid)),
           ({ c with time_started := some now } :: d.history).take MAX_HISTORY_SIZE⟩)

/-- The request-validation part of `move_to_history` (src/main.py lines
186-205), factored out of the handler: either the error response the body
selects, or the extracted command id. -/
def move_check (body : Option Json) : MoveResult ⊕ Json :=
  match body with
  | none => .inl .invalidRequest
  | some b =>
    if !b.truthy then .inl .invalidRequest
    else
      match b with
      | .obj fs =>
        match (Json.obj fs).get "id" with
        | none => .inl .missingId
        | some cid => if !cid.truthy then .inl .missingId else .inr cid
      | _ => .inl .internalError

/-- `move_to_history` (src/main.py lines 183-253): validate the body, extract
the id, search `new_commands`; on a miss answer 404 and leave the file alone,
on a hit save the updated data. -/
def move_to_history (body : Option Json) (file : Option Data) (now : Nat)
    (wok : Bool) : MoveResult × Option Data :=
  match move_check body with
  | .inl r => (r, file)
  | .inr cid =>
    match move_core (load_commands file) cid now with
    | (r, none) => (r, file)
    | (r, some d') => (r, save_commands d' wok file)

/-- One iteration of the loop in `move_commands_to_history` (src/main.py
lines 62-68): the first command matching `cid` gets `time_started`, is
appended to `history` and removed from `new_commands`. -/
def moveOne (now : Nat) (d : Data) (cid : Json) : Data :=
  match d.new_commands.find? (fun c => Json.str c.id == cid) with
  | none => d
  | some c =>
    ⟨d.new_commands.eraseP (fun c => Json.str c.id == cid),
     d.history ++ [{ c with time_started := some now }]⟩

/-- `move_commands_to_history` (src/main.py lines 58-74): move each requested
id, keep only the last `MAX_HISTORY_SIZE` history entries when the cap is
exceeded, save. -/
def move_commands_to_history (ids : List Json) (file : Option Data) (now : Nat)
    (wok : Bool) : Option Data :=
  let d := ids.foldl (moveOne now) (load_commands file)
  let h :=
    if MAX_HISTORY_SIZE < d.history.length then
      d.history.drop (d.history.length - MAX_HISTORY_SIZE)
    else d.history
  save_commands ⟨d.new_commands, h⟩ wok file

/-- The `count` query parameter of `GET /read_first`, after Python parsing:
the literal string `all` (case-insensitively), an integer, or anything else
(which makes `int(count)` raise `ValueError`). -/
inductive CountParam where
  | all : CountParam
  | num : Int → CountParam
  | bad : CountParam
  deriving Repr

/-- The response of the `GET /read_first` handler. -/
inductive ReadResult where
  | badSource   -- 400: source not in new_commands / history
  | badCount    -- 400: count neither a number nor all
  | ok (cmds : List Command)  -- 200 with the selected commands
  deriving Repr

/-- Python list slicing `xs[:n]` for an arbitrary integer `n`. -/
def pySliceTo (n : Int) (xs : List Command) : List Command :=
  if 0 ≤ n then xs.take n.toNat else xs.take (xs.length - (-n).toNat)

/-- `read_first` (src/main.py lines 142-171): load the file, pick the source
list (`new_commands` by default), optionally filter by an exact `command`
value, and return the first `count` (default 1) entries.  The handler never
writes: the file comes back unchanged in the second component. -/
def read_first (file : Option Data) (count : CountParam) (source : String)
    (ctype : Option String) : ReadResult × Option Data :=
  let d := load_commands file
  if source != "new_commands" && source != "history" then (.badSource, file)
  else
    let cmds := if source == "new_commands" then d.new_commands else d.history
    let cmds :=
      match ctype with
      | some t => if t != "" then cmds.filter (fun c => c.command == Json.str t) else cmds
      | none => cmds
    match count with
    | .all => (.ok cmds, file)
    | .num n => (.ok (pySliceTo n cmds), file)
    | .bad => (.badCount, file)

/-- One request to the application: the union of the handlers (and of the
helper `move_commands_to_history`), each carrying its request data, its
timestamps and whether the file write succeeds. -/
inductive Op where
  | add (body : Option Json) (fresh : String) (now : Nat) (wok : Bool)
  | move (body : Option Json) (now : Nat) (wok : Bool)
  | moveMany (ids : List Json) (now : Nat) (wok : Bool)
  | read (count : CountParam) (source : String) (ctype : Option String)

/-- The file contents after serving one request on file contents `file`. -/
def stepOp (file : Option Data) : Op → Option Data
  | .add b f n w => (add_command b file f n w).2
  | .move b n w => (move_to_history b file n w).2
  | .moveMany ids n w => move_commands_to_history ids file n w
  | .read c s t => (read_first file c s t).2

/-- The file contents after serving a sequence of requests. -/
def runOps (ops : List Op) (file : Option Data) : Option Data :=
  ops.foldl stepOp file

/-- The command a request creates, if it is a successful `add_command` call:
`add_check` (hence acceptance, and the created command) depends only on the
request body, never on the file contents. -/
def enqueuedCmd : Op → Option Command
  | .add b fresh now _ =>
    match add_check b with
    | (.success _, cv, pv) => some ⟨fresh, cv, pv, now, none⟩
    | _ => none
  | _ => none

/-- The commands successfully enqueued along a request sequence, in order. -/
def enqueued (ops : List Op) : List Command :=
  ops.filterMap enqueuedCmd

/-- Modelled from the spec: the command status enumeration of §3.  The queue
state machine, statuses and retention sweep of spec §4.2-§4.3 have no
counterpart in src/main.py, so they are modelled from the spec text here. -/
inductive Status where
  | pending : Status
  | processing : Status
  | completed : Status
  | failed : Status
  deriving DecidableEq, Repr

/-- Modelled from the spec: a command as §3 describes it, restricted to the
fields the retention policy reads and writes (`status`, `status_changed_at`,
`params`, plus the identity). -/
structure SpecCommand where
  sid : Nat
  status : Status
  status_changed_at : Nat
  sparams : List (String × String)
  deriving DecidableEq, Repr

/-- Modelled from the spec: the three retention thresholds of §4.2, which are
configuration values overridable by the embedding application. -/
structure RetentionConfig where
  processing_timeout : Nat
  completed_ttl : Nat
  failed_ttl : Nat
  deriving Repr

/-- Modelled from the spec: the default thresholds (300 s processing timeout,
3600 s completed TTL, 86400 s failed TTL). -/
def defaultRetention : RetentionConfig := ⟨300, 3600, 86400⟩

/-- Modelled from the spec: the pure retention decision of §4.2 applied to one
command — keep, evict (`none`), or reclassify a timed-out `processing` command
as `failed` with the `"Processing timeout"` annotation and a refreshed
`status_changed_at`. -/
def sweepCommand (cfg : RetentionConfig) (now : Nat) (c : SpecCommand) :
    Option SpecCommand :=
  match c.status with
  | .pending => some c
  | .completed =>
    if now - c.status_changed_at ≤ cfg.completed_ttl then some c else none
  | .failed =>
    if now - c.status_changed_at ≤ cfg.failed_ttl then some c else none
  | .processing =>
    if cfg.processing_timeout < now - c.status_changed_at then
      some { c with status := .failed, status_changed_at := now,
                    sparams := c.sparams ++ [("error", "Processing timeout")] }
    else some c

/-- Modelled from the spec: the retention sweep over the whole queue, run at
the start of every public operation (§4.3). -/
def sweep (cfg : RetentionConfig) (now : Nat) (q : List SpecCommand) :
    List SpecCommand :=
  q.filterMap (sweepCommand cfg now)

/-! ### Helper lemmas about the handlers -/

/-- A `dict.get` hit means the object is nonempty, hence truthy. -/
lemma Json.get_some_truthy {fs : List (String × Json)} {k : String} {v : Json}
    (h : Json.get (.obj fs) k = some v) : (Json.obj fs).truthy = true := by
  cases fs with
  | nil => simp [Json.get, List.find?] at h
  | cons p ps => rfl

/-- `read_first` never touches the file. -/
lemma read_first_file_eq (file : Option Data) (count : CountParam)
    (source : String) (ctype : Option String) :
    (read_first file count source ctype).2 = file := by
  unfold read_first
  repeat' split
  all_goals rfl

/-- `read_first` with `count=all`, the default source and no type filter
returns exactly the stored pending queue. -/
lemma read_first_all_eq (file : Option Data) :
    read_first file .all "new_commands" none =
      (.ok (load_commands file).new_commands, file) := rfl

/-- `read_first` with the default `count=1`, default source and no filter
returns the first stored pending command. -/
lemma read_first_one_eq (file : Option Data) :
    read_first file (.num 1) "new_commands" none =
      (.ok ((load_commands file).new_commands.take 1), file) := rfl

/-- `move_check` never produces a success response. -/
lemma move_check_not_success (body : Option Json) (c : Command) (hs : Nat) :
    move_check body ≠ .inl (MoveResult.success c hs) := by
  cases body with
  | none => simp [move_check]
  | some b =>
    cases b <;> simp [move_check] <;> (repeat' split) <;> simp


/-- Unfolding `move_to_history` when validation rejects the body. -/
lemma move_to_history_of_inl (body : Option Json) (file : Option Data)
    (now : Nat) (wok : Bool) (r : MoveResult) (hmc : move_check body = .inl r) :
    move_to_history body file now wok = (r, file) := by
  unfold move_to_history
  rw [hmc]

/-- Unfolding `move_to_history` when validation extracts an id. -/
lemma move_to_history_of_inr (body : Option Json) (file : Option Data)
    (now : Nat) (wok : Bool) (cid : Json) (hmc : move_check body = .inr cid) :
    move_to_history body file now wok =
      match move_core (load_commands file) cid now with
      | (r, none) => (r, file)
      | (r, some d') => (r, save_commands d' wok file) := by
  unfold move_to_history
  rw [hmc]

/-- Unfolding `move_core` when no stored command has the requested id. -/
lemma move_core_of_none (d : Data) (cid : Json) (now : Nat)
    (h : (d.new_commands.filter (fun c => Json.str c.id == cid)).getLast? = none) :
    move_core d cid now = (.notFound (d.new_commands.map (fun c => c.id)), none) := by
  unfold move_core
  rw [h]

/-- Unfolding `move_core` when a stored command has the requested id. -/
lemma move_core_of_some (d : Data) (cid : Json) (now : Nat) (m : Command)
    (h : (d.new_commands.filter (fun c => Json.str c.id == cid)).getLast? = some m) :
    move_core d cid now =
      (.success { m with time_started := some now }
         (({ m with time_started := some now } :: d.history).take MAX_HISTORY_SIZE).length,
       some ⟨d.new_commands.filter (fun c => !(Json.str c.id == cid)),
             ({ m with time_started := some now } :: d.history).take MAX_HISTORY_SIZE⟩) := by
  unfold move_core
  rw [h]

/-- What a success response of `move_to_history` says: the history size in the
response, and the new file contents — a subsequence of the old pending queue
together with the moved command pushed onto the history truncated to its first
`MAX_HISTORY_SIZE` entries. -/
lemma move_success_file (body : Option Json) (file : Option Data) (now : Nat)
    (wok : Bool) (c : Command) (hs : Nat)
    (h : (move_to_history body file now wok).1 = .success c hs) :
    hs = ((c :: (load_commands file).history).take MAX_HISTORY_SIZE).length ∧
    ∃ rem, List.Sublist rem (load_commands file).new_commands ∧
      (move_to_history body file now wok).2 =
        save_commands ⟨rem, (c :: (load_commands file).history).take MAX_HISTORY_SIZE⟩
          wok file := by
  cases hmc : move_check body with
  | inl r =>
    rw [move_to_history_of_inl body file now wok r hmc] at h
    exact absurd (h ▸ hmc) (move_check_not_success body c hs)
  | inr cid =>
    rw [move_to_history_of_inr body file now wok cid hmc] at h ⊢
    cases hlast :
        ((load_commands file).new_commands.filter
          (fun x => Json.str x.id == cid)).getLast? with
    | none =>
      rw [move_core_of_none (load_commands file) cid now hlast] at h
      exact absurd h (by simp)
    | some m =>
      rw [move_core_of_some (load_commands file) cid now m hlast] at h ⊢
      simp only at h
      injection h with h1 h2
      subst h1
      subst h2
      exact ⟨rfl, _, List.filter_sublist _, rfl⟩

/-- Case analysis on the file contents after `move_to_history`: either the
file is untouched, or the file was rewritten with a subsequence of the old
pending queue and some command pushed onto the truncated history. -/
lemma move_file_cases (body : Option Json) (file : Option Data) (now : Nat)
    (wok : Bool) :
    (move_to_history body file now wok).2 = file ∨
    ∃ c rem, List.Sublist rem (load_commands file).new_commands ∧
      (move_to_history body file now wok).2 =
        save_commands ⟨rem, (c :: (load_commands file).history).take MAX_HISTORY_SIZE⟩
          wok file := by
  cases hmc : move_check body with
  | inl r => rw [move_to_history_of_inl body file now wok r hmc]; exact Or.inl rfl
  | inr cid =>
    rw [move_to_history_of_inr body file now wok cid hmc]
    cases hlast :
        ((load_commands file).new_commands.filter
          (fun x => Json.str x.id == cid)).getLast? with
    | none =>
      rw [move_core_of_none (load_commands file) cid now hlast]
      exact Or.inl rfl
    | some m =>
      rw [move_core_of_some (load_commands file) cid now m hlast]
      exact Or.inr ⟨{ m with time_started := some now }, _,
        List.filter_sublist _, rfl⟩

/-- Unfolding `add_command` on an accepted request. -/
lemma add_command_of_success (body : Option Json) (file : Option Data)
    (fresh : String) (now : Nat) (wok : Bool) (c0 : Command) (cv pv : Json)
    (hac : add_check body = (.success c0, cv, pv)) :
    add_command body file fresh now wok =
      (.success ⟨fresh, cv, pv, now, none⟩,
       save_commands
         ⟨(load_commands file).new_commands ++ [⟨fresh, cv, pv, now, none⟩],
          (load_commands file).history⟩ wok file) := by
  unfold add_command
  rw [hac]

/-- Unfolding `add_command` on a missing request body. -/
lemma add_command_of_invalidRequest (body : Option Json) (file : Option Data)
    (fresh : String) (now : Nat) (wok : Bool) (cv pv : Json)
    (hac : add_check body = (.invalidRequest, cv, pv)) :
    add_command body file fresh now wok = (.invalidRequest, file) := by
  unfold add_command
  rw [hac]

/-- Unfolding `add_command` on a non-object request body. -/
lemma add_command_of_internalError (body : Option Json) (file : Option Data)
    (fresh : String) (now : Nat) (wok : Bool) (cv pv : Json)
    (hac : add_check body = (.internalError, cv, pv)) :
    add_command body file fresh now wok = (.internalError, file) := by
  unfold add_command
  rw [hac]

/-- Unfolding `add_command` on a missing or falsy `command` field. -/
lemma add_command_of_missingCommand (body : Option Json) (file : Option Data)
    (fresh : String) (now : Nat) (wok : Bool) (cv pv : Json)
    (hac : add_check body = (.missingCommand, cv, pv)) :
    add_command body file fresh now wok = (.missingCommand, file) := by
  unfold add_command
  rw [hac]

/-- Unfolding `add_command` on a non-dict `params` field. -/
lemma add_command_of_invalidParams (body : Option Json) (file : Option Data)
    (fresh : String) (now : Nat) (wok : Bool) (cv pv : Json)
    (hac : add_check body = (.invalidParams, cv, pv)) :
    add_command body file fresh now wok = (.invalidParams, file) := by
  unfold add_command
  rw [hac]

/-- Unfolding `enqueuedCmd` on an accepted add request. -/
lemma enqueuedCmd_of_success (body : Option Json) (fresh : String) (now : Nat)
    (wok : Bool) (c0 : Command) (cv pv : Json)
    (hac : add_check body = (.success c0, cv, pv)) :
    enqueuedCmd (.add body fresh now wok) = some ⟨fresh, cv, pv, now, none⟩ := by
  unfold enqueuedCmd
  dsimp only
  rw [hac]

/-- Case analysis on the file contents after `add_command`: either the file is
untouched, or the request was accepted and the file was rewritten with the
created command appended to the pending queue. -/
lemma add_file_cases (body : Option Json) (file : Option Data) (fresh : String)
    (now : Nat) (wok : Bool) :
    (add_command body file fresh now wok).2 = file ∨
    ∃ c, enqueuedCmd (.add body fresh now wok) = some c ∧
      (add_command body file fresh now wok).2 =
        save_commands ⟨(load_commands file).new_commands ++ [c],
          (load_commands file).history⟩ wok file := by
  rcases hac : add_check body with ⟨r, cv, pv⟩
  cases r with
  | invalidRequest =>
    rw [add_command_of_invalidRequest body file fresh now wok cv pv hac]
    exact Or.inl rfl
  | internalError =>
    rw [add_command_of_internalError body file fresh now wok cv pv hac]
    exact Or.inl rfl
  | missingCommand =>
    rw [add_command_of_missingCommand body file fresh now wok cv pv hac]
    exact Or.inl rfl
  | invalidParams =>
    rw [add_command_of_invalidParams body file fresh now wok cv pv hac]
    exact Or.inl rfl
  | success c0 =>
    rw [add_command_of_success body file fresh now wok c0 cv pv hac]
    exact Or.inr ⟨⟨fresh, cv, pv, now, none⟩,
      enqueuedCmd_of_success body fresh now wok c0 cv pv hac, rfl⟩

/-- The response of `add_command` does not depend on the file contents or on
whether the write succeeds: validation reads only the request body. -/
lemma add_result_indep (body : Option Json) (file file' : Option Data)
    (fresh : String) (now : Nat) (wok wok' : Bool) :
    (add_command body file fresh now wok).1 =
      (add_command body file' fresh now wok').1 := by
  rcases hac : add_check body with ⟨r, cv, pv⟩
  cases r with
  | invalidRequest =>
    rw [add_command_of_invalidRequest body file fresh now wok cv pv hac,
        add_command_of_invalidRequest body file' fresh now wok' cv pv hac]
  | internalError =>
    rw [add_command_of_internalError body file fresh now wok cv pv hac,
        add_command_of_internalError body file' fresh now wok' cv pv hac]
  | missingCommand =>
    rw [add_command_of_missingCommand body file fresh now wok cv pv hac,
        add_command_of_missingCommand body file' fresh now wok' cv pv hac]
  | invalidParams =>
    rw [add_command_of_invalidParams body file fresh now wok cv pv hac,
        add_command_of_invalidParams body file' fresh now wok' cv pv hac]
  | success c0 =>
    rw [add_command_of_success body file fresh now wok c0 cv pv hac,
        add_command_of_success body file' fresh now wok' c0 cv pv hac]

/-- A failed write leaves the file contents of `add_command` untouched. -/
lemma add_file_of_write_failure (body : Option Json) (file : Option Data)
    (fresh : String) (now : Nat) :
    (add_command body file fresh now false).2 = file := by
  rcases add_file_cases body file fresh now false with hf | ⟨c, _, hf⟩
  · exact hf
  · rw [hf]; rfl

/-- The response of `move_to_history` does not depend on whether the write
succeeds. -/
lemma move_result_indep (body : Option Json) (file : Option Data) (now : Nat)
    (wok wok' : Bool) :
    (move_to_history body file now wok).1 =
      (move_to_history body file now wok').1 := by
  cases hmc : move_check body with
  | inl r =>
    rw [move_to_history_of_inl body file now wok r hmc,
        move_to_history_of_inl body file now wok' r hmc]
  | inr cid =>
    rw [move_to_history_of_inr body file now wok cid hmc,
        move_to_history_of_inr body file now wok' cid hmc]
    cases hlast :
        ((load_commands file).new_commands.filter
          (fun x => Json.str x.id == cid)).getLast? with
    | none => rw [move_core_of_none (load_commands file) cid now hlast]
    | some m => rw [move_core_of_some (load_commands file) cid now m hlast]

/-- A failed write leaves the file contents of `move_to_history` untouched. -/
lemma move_file_of_write_failure (body : Option Json) (file : Option Data)
    (now : Nat) :
    (move_to_history body file now false).2 = file := by
  rcases move_file_cases body file now false with hf | ⟨c, rem, _, hf⟩
  · exact hf
  · rw [hf]; rfl

/-- One `moveOne` step only removes from the pending queue. -/
lemma moveOne_new_sublist (now : Nat) (d : Data) (cid : Json) :
    List.Sublist (moveOne now d cid).new_commands d.new_commands := by
  unfold moveOne
  cases hf : d.new_commands.find? (fun c => Json.str c.id == cid) with
  | none => exact List.Sublist.refl _
  | some c => exact List.eraseP_sublist _

/-- Folding `moveOne` over a list of ids only removes from the pending queue. -/
lemma foldl_moveOne_sublist (now : Nat) :
    ∀ (ids : List Json) (d : Data),
      List.Sublist ((ids.foldl (moveOne now) d).new_commands) d.new_commands := by
  intro ids
  induction ids with
  | nil => intro d; exact List.Sublist.refl _
  | cons i is ih =>
    intro d
    simp only [List.foldl_cons]
    exact (ih (moveOne now d i)).trans (moveOne_new_sublist now d i)


/-- A failed write leaves the file contents of `move_commands_to_history`
untouched. -/
lemma moveMany_file_of_write_failure (ids : List Json) (file : Option Data)
    (now : Nat) :
    move_commands_to_history ids file now false = file := by
  simp [move_commands_to_history, save_commands]

/-- `move_commands_to_history` only removes from the pending queue. -/
lemma moveMany_new_sublist (ids : List Json) (file : Option Data) (now : Nat)
    (wok : Bool) :
    List.Sublist
      (load_commands (move_commands_to_history ids file now wok)).new_commands
      (load_commands file).new_commands := by
  cases wok with
  | false =>
    rw [moveMany_file_of_write_failure]
  | true =>
    simp only [move_commands_to_history, save_commands, if_pos, load_commands,
      Option.getD_some]
    exact foldl_moveOne_sublist now ids (load_commands file)

/-- After a successful write, the file left by `move_commands_to_history`
holds at most `MAX_HISTORY_SIZE` history entries whenever the cap is
enforced, and otherwise a history that was already within the cap. -/
lemma moveMany_history_le (ids : List Json) (file : Option Data) (now : Nat) :
    (load_commands (move_commands_to_history ids file now true)).history.length
      ≤ MAX_HISTORY_SIZE := by
  simp only [move_commands_to_history, save_commands, if_pos, load_commands,
    Option.getD_some, MAX_HISTORY_SIZE]
  split
  · simp only [List.length_drop]
    omega
  · omega

/-- `runOps` on a nonempty request sequence. -/
lemma runOps_cons (op : Op) (ops : List Op) (file : Option Data) :
    runOps (op :: ops) file = runOps ops (stepOp file op) := rfl

/-- `enqueued` on a nonempty request sequence. -/
lemma enqueued_cons (op : Op) (ops : List Op) :
    enqueued (op :: ops) = (enqueuedCmd op).toList ++ enqueued ops := by
  unfold enqueued
  cases h : enqueuedCmd op <;> simp [List.filterMap_cons, h]

/-- One served request keeps the pending queue a subsequence of the old
pending queue followed by whatever command the request enqueued. -/
lemma stepOp_new_sublist (file : Option Data) (op : Op) :
    List.Sublist (load_commands (stepOp file op)).new_commands
      ((load_commands file).new_commands ++ (enqueuedCmd op).toList) := by
  cases op with
  | add body fresh now wok =>
    rcases add_file_cases body file fresh now wok with hf | ⟨c, he, hf⟩
    · show List.Sublist (load_commands (add_command body file fresh now wok).2).new_commands _
      rw [hf]
      exact List.sublist_append_left _ _
    · show List.Sublist (load_commands (add_command body file fresh now wok).2).new_commands _
      rw [hf, he]
      cases wok with
      | true =>
        simpa [save_commands, load_commands] using
          List.Sublist.refl ((load_commands file).new_commands ++ [c])
      | false =>
        simpa [save_commands] using
          List.sublist_append_left (load_commands file).new_commands [c]
  | move body now wok =>
    rcases move_file_cases body file now wok with hf | ⟨c, rem, hsub, hf⟩
    · show List.Sublist (load_commands (move_to_history body file now wok).2).new_commands _
      rw [hf]
      simpa [enqueuedCmd] using List.Sublist.refl (load_commands file).new_commands
    · show List.Sublist (load_commands (move_to_history body file now wok).2).new_commands _
      rw [hf]
      cases wok with
      | true => simpa [save_commands, load_commands, enqueuedCmd] using hsub
      | false =>
        simpa [save_commands, enqueuedCmd] using
          List.Sublist.refl (load_commands file).new_commands
  | moveMany ids now wok =>
    simpa [enqueuedCmd] using moveMany_new_sublist ids file now wok
  | read count source ctype =>
    show List.Sublist (load_commands (read_first file count source ctype).2).new_commands _
    rw [read_first_file_eq]
    simpa [enqueuedCmd] using List.Sublist.refl (load_commands file).new_commands

/-- Serving any request sequence keeps the pending queue a subsequence of the
old pending queue followed by the successfully enqueued commands, in order. -/
lemma runOps_new_sublist :
    ∀ (ops : List Op) (file : Option Data),
      List.Sublist (load_commands (runOps ops file)).new_commands
        ((load_commands file).new_commands ++ enqueued ops) := by
  intro ops
  induction ops with
  | nil =>
    intro file
    simpa [runOps, enqueued] using
      List.Sublist.refl (load_commands file).new_commands
  | cons op ops ih =>
    intro file
    have h3 := List.Sublist.append_right (stepOp_new_sublist file op) (enqueued ops)
    have h4 := (ih (stepOp file op)).trans h3
    rw [runOps_cons, enqueued_cons, ← List.append_assoc]
    exact h4

/-! ### Claim theorems -/

/-- Claim C1, counterexample.  The claim states that `GET /read_first` (the
`DequeueNext` of the spec) transitions the returned command to `processing`.
In fact `read_first` is read-only: on a queue holding one pending command it
returns that command AND leaves the stored state unchanged, so an immediately
repeated call returns the very same command again (the spec instead demands
that a second `DequeueNext` with no other pending command return "no
command"). -/
theorem C1_counterexample :
    read_first (some ⟨[⟨"a", .str "click", .obj [], 0, none⟩], []⟩)
        (.num 1) "new_commands" none
      = (.ok [⟨"a", .str "click", .obj [], 0, none⟩],
         some ⟨[⟨"a", .str "click", .obj [], 0, none⟩], []⟩) ∧
    (read_first
        ((read_first (some ⟨[⟨"a", .str "click", .obj [], 0, none⟩], []⟩)
          (.num 1) "new_commands" none).2)
        (.num 1) "new_commands" none).1
      = .ok [⟨"a", .str "click", .obj [], 0, none⟩] :=
  ⟨rfl, rfl⟩

/-- Claim C1, amended.  `read_first` with its default parameters (`count=1`,
`source=new_commands`, no type filter) returns the first pending command in
insertion order as a read-only snapshot, never mutating the stored state; on
an empty or missing queue it returns an empty list (an HTTP 200 response),
not an error. -/
theorem C1_amended_read_first (file : Option Data) :
    read_first file (.num 1) "new_commands" none =
      (.ok ((load_commands file).new_commands.take 1), file) ∧
    read_first none (.num 1) "new_commands" none = (.ok [], none) :=
  ⟨read_first_one_eq file, rfl⟩

/-- Claim C2 (spec-modelled: the status state machine and retention sweep of
spec §4.2-§4.3 have no counterpart in src/main.py).  A command in status
`processing` whose age exceeds the configured 300-second processing timeout
is reclassified by the sweep: status becomes `failed`, the error annotation
`"Processing timeout"` is attached to its params, and `status_changed_at`
becomes the sweep time; the reclassified command (not evicted) appears in the
swept queue. -/
theorem C2_processing_timeout (now : Nat) (c : SpecCommand)
    (q : List SpecCommand) (hst : c.status = Status.processing)
    (hage : defaultRetention.processing_timeout < now - c.status_changed_at)
    (hmem : c ∈ q) :
    sweepCommand defaultRetention now c =
      some { c with status := Status.failed, status_changed_at := now,
                    sparams := c.sparams ++ [("error", "Processing timeout")] } ∧
    { c with status := Status.failed, status_changed_at := now,
             sparams := c.sparams ++ [("error", "Processing timeout")] }
      ∈ sweep defaultRetention now q := by
  have h1 : sweepCommand defaultRetention now c =
      some { c with status := Status.failed, status_changed_at := now,
                    sparams := c.sparams ++ [("error", "Processing timeout")] } := by
    unfold sweepCommand
    rw [hst]
    simp [hage]
  exact ⟨h1, List.mem_filterMap.mpr ⟨c, hmem, h1⟩⟩

/-- Witness for C2 at a concrete input: a `processing` command last touched at
time 0, swept at time 301 with the default 300-second timeout. -/
theorem C2_processing_timeout_witness :
    (⟨7, Status.processing, 0, []⟩ : SpecCommand).status = Status.processing ∧
    defaultRetention.processing_timeout <
      301 - (⟨7, Status.processing, 0, []⟩ : SpecCommand).status_changed_at ∧
    (⟨7, Status.processing, 0, []⟩ : SpecCommand) ∈
      [(⟨7, Status.processing, 0, []⟩ : SpecCommand)] ∧
    (sweepCommand defaultRetention 301 ⟨7, Status.processing, 0, []⟩ =
      some ⟨7, Status.failed, 301, [("error", "Processing timeout")]⟩ ∧
     (⟨7, Status.failed, 301, [("error", "Processing timeout")]⟩ : SpecCommand)
       ∈ sweep defaultRetention 301 [⟨7, Status.processing, 0, []⟩]) :=
  ⟨rfl, by decide, by decide,
   C2_processing_timeout 301 ⟨7, Status.processing, 0, []⟩
     [⟨7, Status.processing, 0, []⟩] rfl (by decide) (by decide)⟩

/-- Claim C7.  Starting from an empty (or missing) data file, after any
sequence of requests the stored pending queue is a subsequence of the
successfully enqueued commands in their enqueue order — surviving commands
appear in enqueue order — and both the full listing (`read_first` with
`count=all`) and the first-command scan (`read_first` with the default
`count=1`) present exactly that queue respectively its head. -/
theorem C7_fifo_order (ops : List Op) :
    List.Sublist (load_commands (runOps ops none)).new_commands (enqueued ops) ∧
    (read_first (runOps ops none) .all "new_commands" none).1 =
      .ok (load_commands (runOps ops none)).new_commands ∧
    (read_first (runOps ops none) (.num 1) "new_commands" none).1 =
      .ok ((load_commands (runOps ops none)).new_commands.take 1) := by
  refine ⟨?_, ?_, ?_⟩
  · simpa [load_commands] using runOps_new_sublist ops none
  · rw [read_first_all_eq]
  · rw [read_first_one_eq]

/-- Serving one request preserves the history-size bound. -/
lemma stepOp_history_le (file : Option Data) (op : Op)
    (hle : (load_commands file).history.length ≤ MAX_HISTORY_SIZE) :
    (load_commands (stepOp file op)).history.length ≤ MAX_HISTORY_SIZE := by
  cases op with
    | add body fresh now wok =>
      rcases add_file_cases body file fresh now wok with hf | ⟨c, _, hf⟩
      · show (load_commands (add_command body file fresh now wok).2).history.length ≤ _
        rw [hf]
        exact hle
      · show (load_commands (add_command body file fresh now wok).2).history.length ≤ _
        rw [hf]
        cases wok with
        | true => simpa [save_commands, load_commands] using hle
        | false => simpa [save_commands] using hle
    | move body now wok =>
      rcases move_file_cases body file now wok with hf | ⟨c, rem, _, hf⟩
      · show (load_commands (move_to_history body file now wok).2).history.length ≤ _
        rw [hf]
        exact hle
      · show (load_commands (move_to_history body file now wok).2).history.length ≤ _
        rw [hf]
        cases wok with
        | true =>
          simpa [save_commands, load_commands] using
            List.length_take_le MAX_HISTORY_SIZE (c :: (load_commands file).history)
        | false => simpa [save_commands] using hle
    | moveMany ids now wok =>
      cases wok with
      | true => exact moveMany_history_le ids file now
      | false =>
        show (load_commands (move_commands_to_history ids file now false)).history.length ≤ _
        rw [moveMany_file_of_write_failure]
        exact hle
    | read count source ctype =>
      show (load_commands (read_first file count source ctype).2).history.length ≤ _
      rw [read_first_file_eq]
      exact hle

/-- Starting from an empty file, the stored history never exceeds the cap. -/
lemma runOps_history_le :
    ∀ (ops : List Op) (file : Option Data),
      (load_commands file).history.length ≤ MAX_HISTORY_SIZE →
      (load_commands (runOps ops file)).history.length ≤ MAX_HISTORY_SIZE := by
  intro ops
  induction ops with
  | nil => intro file hle; exact hle
  | cons op ops ih =>
    intro file hle
    rw [runOps_cons]
    exact ih (stepOp file op) (stepOp_history_le file op hle)

/-- Claim C9.  If the stored history holds at most `MAX_HISTORY_SIZE = 3`
commands, it still does after serving any request — in particular, starting
from an empty file the history never exceeds 3 entries after any request
sequence; and a successful `move_to_history` (with the write succeeding)
inserts the moved command at the front of the history and truncates to the
first 3 entries, so when the history was full the entry at position 3 — the
oldest one — is dropped, regardless of its age. -/
theorem C9_history_cap (file : Option Data) (op : Op)
    (hle : (load_commands file).history.length ≤ MAX_HISTORY_SIZE) :
    (load_commands (stepOp file op)).history.length ≤ MAX_HISTORY_SIZE ∧
    (∀ ops : List Op,
      (load_commands (runOps ops none)).history.length ≤ MAX_HISTORY_SIZE) ∧
    (∀ (body : Option Json) (now : Nat) (c : Command) (hs : Nat),
      (move_to_history body file now true).1 = .success c hs →
      (load_commands (move_to_history body file now true).2).history =
        (c :: (load_commands file).history).take MAX_HISTORY_SIZE ∧
      ((load_commands file).history.length = MAX_HISTORY_SIZE →
        (load_commands (move_to_history body file now true).2).history =
          c :: (load_commands file).history.take 2)) := by
  refine ⟨stepOp_history_le file op hle, ?_, ?_⟩
  · intro ops
    exact runOps_history_le ops none (by simp [load_commands])
  · intro body now c hs h
    obtain ⟨_, rem, _, hf⟩ := move_success_file body file now true c hs h
    constructor
    · rw [hf]
      simp [save_commands, load_commands]
    · intro _
      rw [hf]
      simp only [save_commands, if_pos, load_commands, Option.getD_some]
      rfl

/-- Witness for C9 at a concrete input: the empty file (history length 0) and
a plain read request. -/
theorem C9_history_cap_witness :
    (load_commands none).history.length ≤ MAX_HISTORY_SIZE ∧
    ((load_commands (stepOp none (.read .all "new_commands" none))).history.length
        ≤ MAX_HISTORY_SIZE ∧
     (∀ ops : List Op,
       (load_commands (runOps ops none)).history.length ≤ MAX_HISTORY_SIZE) ∧
     (∀ (body : Option Json) (now : Nat) (c : Command) (hs : Nat),
       (move_to_history body none now true).1 = .success c hs →
       (load_commands (move_to_history body none now true).2).history =
         (c :: (load_commands none).history).take MAX_HISTORY_SIZE ∧
       ((load_commands none).history.length = MAX_HISTORY_SIZE →
         (load_commands (move_to_history body none now true).2).history =
           c :: (load_commands none).history.take 2))) :=
  ⟨by decide, C9_history_cap none (.read .all "new_commands" none) (by decide)⟩

/-- A request that enqueues a `click` command with id `i` at time 0. -/
def addClick (i : String) : Op :=
  .add (some (.obj [("command", .str "click")])) i 0 true

/-- A request that moves the command with id `s` to history at time `t`. -/
def moveId (s : String) (t : Nat) : Op :=
  .move (some (.obj [("id", .str s)])) t true

/-- The request sequence refuting age-based eviction: enqueue four commands,
complete "a" at time 0, then complete "b", "c", "d" at time 10. -/
def c3ops : List Op :=
  [addClick "a", addClick "b", addClick "c", addClick "d",
   moveId "a" 0, moveId "b" 10, moveId "c" 10, moveId "d" 10]

/-- The file contents after serving `c3ops` from an empty file. -/
def c3file : Option Data := runOps c3ops none

/-- Claim C3, counterexample.  The claim states a completed command is kept
while `now - status_changed_at ≤ 3600 s` and evicted only afterwards.  In the
code eviction is size-based: command "a" is completed (moved to history) at
time 0, and after three further completions at time 10 — when its age is
10 s, far below 3600 s — it is already gone from the history snapshot, which
holds only the three most recent entries "d", "c", "b". -/
theorem C3_counterexample :
    (load_commands c3file).history.map (fun c => c.id) = ["d", "c", "b"] ∧
    ¬ ("a" ∈ (load_commands c3file).history.map (fun c => c.id)) ∧
    (read_first c3file .all "history" none).1 =
      .ok (load_commands c3file).history ∧
    10 - 0 ≤ 3600 :=
  ⟨rfl, by decide, rfl, by decide⟩

/-- Claim C3, amended.  Eviction of history (terminal) commands is size-based,
not age-based: a successful `move_to_history` rewrites the history to the
moved command followed by the previous entries truncated to the first
`MAX_HISTORY_SIZE = 3`, so an entry survives exactly while it is among the 3
most recent completions, regardless of its age; and read requests never evict
anything, whatever the current time. -/
theorem C3_amended (body : Option Json) (file : Option Data) (now : Nat)
    (wok : Bool) (c : Command) (hs : Nat)
    (h : (move_to_history body file now wok).1 = .success c hs) :
    (∃ rem, List.Sublist rem (load_commands file).new_commands ∧
      (move_to_history body file now wok).2 =
        save_commands ⟨rem, (c :: (load_commands file).history).take MAX_HISTORY_SIZE⟩
          wok file) ∧
    ∀ (count : CountParam) (source : String) (ctype : Option String),
      (read_first file count source ctype).2 = file :=
  ⟨(move_success_file body file now wok c hs h).2,
   fun count source ctype => read_first_file_eq file count source ctype⟩

/-- Witness for C3 (amended) at a concrete input: moving the single pending
command "x" to history at time 5. -/
theorem C3_amended_witness :
    (move_to_history (some (.obj [("id", .str "x")]))
        (some ⟨[⟨"x", .str "click", .obj [], 0, none⟩], []⟩) 5 true).1 =
      .success ⟨"x", .str "click", .obj [], 0, some 5⟩ 1 ∧
    ((∃ rem, List.Sublist rem
        (load_commands (some ⟨[⟨"x", .str "click", .obj [], 0, none⟩], []⟩)).new_commands ∧
      (move_to_history (some (.obj [("id", .str "x")]))
          (some ⟨[⟨"x", .str "click", .obj [], 0, none⟩], []⟩) 5 true).2 =
        save_commands ⟨rem,
          (⟨"x", .str "click", .obj [], 0, some 5⟩ ::
            (load_commands (some ⟨[⟨"x", .str "click", .obj [], 0, none⟩], []⟩)).history).take
              MAX_HISTORY_SIZE⟩ true
          (some ⟨[⟨"x", .str "click", .obj [], 0, none⟩], []⟩)) ∧
     ∀ (count : CountParam) (source : String) (ctype : Option String),
       (read_first (some ⟨[⟨"x", .str "click", .obj [], 0, none⟩], []⟩)
           count source ctype).2 =
         some ⟨[⟨"x", .str "click", .obj [], 0, none⟩], []⟩) :=
  ⟨rfl, C3_amended (some (.obj [("id", .str "x")]))
      (some ⟨[⟨"x", .str "click", .obj [], 0, none⟩], []⟩) 5 true
      ⟨"x", .str "click", .obj [], 0, some 5⟩ 1 rfl⟩

/-- Python `not request.json.get(k)`: the field is absent or falsy. -/
def falsyField (b : Json) (k : String) : Bool :=
  match b.get k with
  | none => true
  | some v => !v.truthy

/-- Whether a JSON value is an object (`isinstance(v, dict)`). -/
def Json.isObj : Json → Bool
  | .obj _ => true
  | _ => false

/-- `add_check` on a truthy object body with an absent or falsy `command`
field answers MISSING_COMMAND. -/
lemma add_check_missing (fs : List (String × Json))
    (htr : (Json.obj fs).truthy = true)
    (hcv : falsyField (.obj fs) "command" = true) :
    add_check (some (.obj fs)) = (.missingCommand, .null, .null) := by
  unfold add_check
  cases hg : (Json.obj fs).get "command" with
  | none => simp [htr, hg]
  | some cv =>
    have : cv.truthy = false := by
      unfold falsyField at hcv
      rw [hg] at hcv
      simpa using hcv
    simp [htr, hg, this]

/-- `add_check` on a truthy object body with a truthy `command` field and a
dict-valued (or defaulted) `params` accepts the request. -/
lemma add_check_success (fs : List (String × Json))
    (htr : (Json.obj fs).truthy = true) (cv : Json)
    (hcv : (Json.obj fs).get "command" = some cv) (hcvt : cv.truthy = true)
    (ps : List (String × Json))
    (hps : ((Json.obj fs).get "params").getD (.obj []) = .obj ps) :
    add_check (some (.obj fs)) =
      (.success ⟨"", cv, .obj ps, 0, none⟩, cv, .obj ps) := by
  unfold add_check
  simp [htr, hcv, hcvt, hps]

/-- `add_check` on a truthy object body with a truthy `command` field and a
non-dict `params` value answers INVALID_PARAMS. -/
lemma add_check_invalidParams (fs : List (String × Json))
    (htr : (Json.obj fs).truthy = true) (cv : Json)
    (hcv : (Json.obj fs).get "command" = some cv) (hcvt : cv.truthy = true)
    (v : Json) (hv : (Json.obj fs).get "params" = some v)
    (hvo : v.isObj = false) :
    add_check (some (.obj fs)) = (.invalidParams, .null, .null) := by
  unfold add_check
  cases v <;> simp_all [Json.isObj]

/-- Claim C4, counterexample.  The claim states that a type outside
{click, input, scroll, wait} fails with `InvalidCommandType` and leaves the
queue unchanged.  In the code there is no type enumeration at all: enqueueing
`command = "teleport"` succeeds with a 201 response and the queue grows from
empty to one command (no `InvalidCommandType` error even exists among the
handler's responses). -/
theorem C4_counterexample :
    add_command (some (.obj [("command", .str "teleport")])) none "u1" 5 true =
      (.success ⟨"u1", .str "teleport", .obj [], 5, none⟩,
       some ⟨[⟨"u1", .str "teleport", .obj [], 5, none⟩], []⟩) ∧
    (load_commands (add_command (some (.obj [("command", .str "teleport")]))
        none "u1" 5 true).2).new_commands ≠
      (load_commands none).new_commands :=
  ⟨rfl, fun h => List.cons_ne_nil _ _ h⟩

/-- Claim C4, amended.  `add_command` performs no type-enumeration check: the
only validation of the command type is presence and truthiness.  An absent or
falsy `command` field fails with MISSING_COMMAND and leaves the file
unchanged; any truthy `command` value whatsoever (with valid params) is
accepted. -/
theorem C4_amended (fs : List (String × Json)) (file : Option Data)
    (fresh : String) (now : Nat) (wok : Bool)
    (htr : (Json.obj fs).truthy = true) :
    (falsyField (.obj fs) "command" = true →
      add_command (some (.obj fs)) file fresh now wok = (.missingCommand, file)) ∧
    (∀ cv, (Json.obj fs).get "command" = some cv → cv.truthy = true →
      ∀ ps, ((Json.obj fs).get "params").getD (.obj []) = .obj ps →
        (add_command (some (.obj fs)) file fresh now wok).1 =
          .success ⟨fresh, cv, .obj ps, now, none⟩) := by
  constructor
  · intro hcv
    exact add_command_of_missingCommand _ file fresh now wok _ _
      (add_check_missing fs htr hcv)
  · intro cv hcv hcvt ps hps
    rw [add_command_of_success _ file fresh now wok _ cv (.obj ps)
      (add_check_success fs htr cv hcv hcvt ps hps)]

/-- Witness for C4 (amended) at a concrete input: the out-of-enumeration type
"teleport" is accepted. -/
theorem C4_amended_witness :
    (Json.obj [("command", Json.str "teleport")]).truthy = true ∧
    (Json.obj [("command", Json.str "teleport")]).get "command" =
      some (.str "teleport") ∧
    (Json.str "teleport").truthy = true ∧
    ((Json.obj [("command", Json.str "teleport")]).get "params").getD (.obj []) =
      .obj [] ∧
    (add_command (some (.obj [("command", Json.str "teleport")]))
        none "u1" 5 true).1 =
      .success ⟨"u1", .str "teleport", .obj [], 5, none⟩ :=
  ⟨rfl, rfl, rfl, rfl,
   (C4_amended [("command", Json.str "teleport")] none "u1" 5 true rfl).2
     (.str "teleport") rfl rfl [] rfl⟩

/-- Claim C10, counterexample.  The claim states that every request whose
`params` is supplied but is not a JSON object is rejected with
INVALID_PARAMS.  A request carrying `params = 5` but no `command` field is
instead rejected with MISSING_COMMAND: the command check precedes the params
check. -/
theorem C10_counterexample :
    add_command (some (.obj [("params", .num 5)])) none "u2" 0 true =
      (.missingCommand, none) ∧
    AddResult.missingCommand ≠ AddResult.invalidParams :=
  ⟨rfl, fun h => nomatch h⟩

/-- Claim C10, amended.  Provided the body is a truthy JSON object whose
`command` field is present and truthy (otherwise MISSING_COMMAND takes
precedence), a supplied non-object `params` value is rejected with
INVALID_PARAMS before anything is loaded or stored — the file is returned
unchanged — and an omitted `params` defaults to the empty object in the
created command. -/
theorem C10_amended (fs : List (String × Json)) (file : Option Data)
    (fresh : String) (now : Nat) (wok : Bool)
    (htr : (Json.obj fs).truthy = true) (cv : Json)
    (hcv : (Json.obj fs).get "command" = some cv) (hcvt : cv.truthy = true) :
    (∀ v, (Json.obj fs).get "params" = some v → v.isObj = false →
      add_command (some (.obj fs)) file fresh now wok = (.invalidParams, file)) ∧
    ((Json.obj fs).get "params" = none →
      (add_command (some (.obj fs)) file fresh now wok).1 =
        .success ⟨fresh, cv, .obj [], now, none⟩) := by
  constructor
  · intro v hv hvo
    exact add_command_of_invalidParams _ file fresh now wok _ _
      (add_check_invalidParams fs htr cv hcv hcvt v hv hvo)
  · intro hv
    rw [add_command_of_success _ file fresh now wok _ cv (.obj [])
      (add_check_success fs htr cv hcv hcvt [] (by rw [hv]; rfl))]

/-- Witness for C10 (amended) at a concrete input: `params = 5` alongside a
valid command is rejected with INVALID_PARAMS and the file is untouched. -/
theorem C10_amended_witness :
    (Json.obj [("command", Json.str "click"), ("params", Json.num 5)]).truthy
      = true ∧
    (Json.obj [("command", Json.str "click"), ("params", Json.num 5)]).get
      "command" = some (.str "click") ∧
    (Json.str "click").truthy = true ∧
    (Json.obj [("command", Json.str "click"), ("params", Json.num 5)]).get
      "params" = some (.num 5) ∧
    (Json.num 5).isObj = false ∧
    add_command
      (some (.obj [("command", Json.str "click"), ("params", Json.num 5)]))
      none "u3" 2 true = (.invalidParams, none) :=
  ⟨rfl, rfl, rfl, rfl, rfl,
   (C10_amended [("command", Json.str "click"), ("params", Json.num 5)]
       none "u3" 2 true rfl (.str "click") rfl rfl).1 (.num 5) rfl rfl⟩

/-- `move_check` on a truthy object body with a truthy `id` field extracts
that id. -/
lemma move_check_obj_inr (fs : List (String × Json)) (cid : Json)
    (hid : (Json.obj fs).get "id" = some cid) (htr : cid.truthy = true) :
    move_check (some (.obj fs)) = .inr cid := by
  have hbt := Json.get_some_truthy hid
  unfold move_check
  simp [hbt, hid, htr]

/-- Claim C5, counterexample.  The claim states `move_to_history` fails with
`CommandNotFound` exactly when no command with the given id is present.  But
the handler searches only `new_commands`: with a command of id "x" present in
the history (and visible in the `read_first` history snapshot), the request
still answers COMMAND_NOT_FOUND — and per the spec (§9) `Complete` on a
terminal command should instead succeed by overwriting it. -/
theorem C5_counterexample :
    move_to_history (some (.obj [("id", .str "x")]))
        (some ⟨[], [⟨"x", .str "click", .obj [], 0, some 0⟩]⟩) 9 true =
      (.notFound [], some ⟨[], [⟨"x", .str "click", .obj [], 0, some 0⟩]⟩) ∧
    (read_first (some ⟨[], [⟨"x", .str "click", .obj [], 0, some 0⟩]⟩)
        .all "history" none).1 =
      .ok [⟨"x", .str "click", .obj [], 0, some 0⟩] ∧
    (⟨"x", .str "click", .obj [], 0, some 0⟩ : Command).id = "x" :=
  ⟨rfl, rfl, rfl⟩

/-- Claim C5, amended.  For a well-formed request, `move_to_history` fails
with COMMAND_NOT_FOUND exactly when no command in `new_commands` carries the
requested id (commands already in history are not searched); on that failure
the file is returned unchanged and nothing is persisted.  When matches exist,
the last matching command is moved: it gets `time_started = now`, is pushed
onto the truncated history, the matching commands leave the pending queue,
the result is persisted, and the response reports success. -/
theorem C5_amended (fs : List (String × Json)) (file : Option Data)
    (now : Nat) (wok : Bool) (cid : Json)
    (hid : (Json.obj fs).get "id" = some cid) (htr : cid.truthy = true) :
    ((load_commands file).new_commands.filter
        (fun c => Json.str c.id == cid) = [] →
      move_to_history (some (.obj fs)) file now wok =
        (.notFound ((load_commands file).new_commands.map (fun c => c.id)),
         file)) ∧
    (∀ m, ((load_commands file).new_commands.filter
        (fun c => Json.str c.id == cid)).getLast? = some m →
      move_to_history (some (.obj fs)) file now wok =
        (.success { m with time_started := some now }
           (({ m with time_started := some now } ::
              (load_commands file).history).take MAX_HISTORY_SIZE).length,
         save_commands
           ⟨(load_commands file).new_commands.filter
              (fun c => !(Json.str c.id == cid)),
            ({ m with time_started := some now } ::
              (load_commands file).history).take MAX_HISTORY_SIZE⟩
           wok file)) := by
  have hmc := move_check_obj_inr fs cid hid htr
  constructor
  · intro hnil
    rw [move_to_history_of_inr _ file now wok cid hmc,
        move_core_of_none (load_commands file) cid now (by rw [hnil]; rfl)]
  · intro m hm
    rw [move_to_history_of_inr _ file now wok cid hmc,
        move_core_of_some (load_commands file) cid now m hm]

/-- Witness for C5 (amended) at a concrete input: an empty file has no
pending command with id "x", so the request answers COMMAND_NOT_FOUND with
the file unchanged. -/
theorem C5_amended_witness :
    (Json.obj [("id", Json.str "x")]).get "id" = some (.str "x") ∧
    (Json.str "x").truthy = true ∧
    ((load_commands (none : Option Data)).new_commands.filter
        (fun c => Json.str c.id == Json.str "x") = [] →
      move_to_history (some (.obj [("id", Json.str "x")])) none 9 true =
        (.notFound ((load_commands (none : Option Data)).new_commands.map
          (fun c => c.id)), none)) :=
  ⟨rfl, rfl, (C5_amended [("id", Json.str "x")] none 9 true (.str "x") rfl rfl).1⟩

/-- Claim C6, counterexample.  The claim states the persisted file contains
only pending commands (with a 1-based `order` annotation) and that completed
commands are never written.  After moving the only pending command "y" to
history, the rewritten file contains it in its `history` section: terminal
commands are persisted too (and no `order` field exists anywhere in the
stored record). -/
theorem C6_counterexample :
    (move_to_history (some (.obj [("id", .str "y")]))
        (some ⟨[⟨"y", .str "click", .obj [], 0, none⟩], []⟩) 5 true).2 =
      some ⟨[], [⟨"y", .str "click", .obj [], 0, some 5⟩]⟩ ∧
    (load_commands (move_to_history (some (.obj [("id", .str "y")]))
        (some ⟨[⟨"y", .str "click", .obj [], 0, none⟩], []⟩) 5 true).2).history
      ≠ [] :=
  ⟨rfl, fun h => List.cons_ne_nil _ _ h⟩

/-- Claim C6, amended.  After every mutating operation whose write succeeds,
the file is rewritten in full with the complete state — both the pending
queue and the history list: a successful `add_command` writes the old state
with the new command appended to `new_commands` (history persisted verbatim),
and a successful `move_to_history` writes the remaining pending commands
together with the moved command pushed onto the truncated history. -/
theorem C6_amended (body : Option Json) (file : Option Data) (fresh : String)
    (now : Nat) :
    (∀ c, (add_command body file fresh now true).1 = .success c →
      (add_command body file fresh now true).2 =
        some ⟨(load_commands file).new_commands ++ [c],
              (load_commands file).history⟩) ∧
    (∀ c hs, (move_to_history body file now true).1 = .success c hs →
      ∃ rem, List.Sublist rem (load_commands file).new_commands ∧
        (move_to_history body file now true).2 =
          some ⟨rem, (c :: (load_commands file).history).take MAX_HISTORY_SIZE⟩) := by
  constructor
  · intro c h
    rcases hac : add_check body with ⟨r, cv, pv⟩
    cases r with
    | invalidRequest =>
      rw [add_command_of_invalidRequest body file fresh now true cv pv hac] at h
      exact absurd h (by simp)
    | internalError =>
      rw [add_command_of_internalError body file fresh now true cv pv hac] at h
      exact absurd h (by simp)
    | missingCommand =>
      rw [add_command_of_missingCommand body file fresh now true cv pv hac] at h
      exact absurd h (by simp)
    | invalidParams =>
      rw [add_command_of_invalidParams body file fresh now true cv pv hac] at h
      exact absurd h (by simp)
    | success c0 =>
      rw [add_command_of_success body file fresh now true c0 cv pv hac] at h ⊢
      simp only at h
      injection h with h1
      rw [← h1]
      rfl
  · intro c hs h
    obtain ⟨_, rem, hsub, hf⟩ := move_success_file body file now true c hs h
    exact ⟨rem, hsub, by rw [hf]; rfl⟩

/-- Witness for C6 (amended) at a concrete input: a successful enqueue onto
the empty file persists the full state `{new_commands := [c], history := []}`. -/
theorem C6_amended_witness :
    (add_command (some (.obj [("command", Json.str "click")])) none "u4" 3
        true).1 = .success ⟨"u4", .str "click", .obj [], 3, none⟩ ∧
    (add_command (some (.obj [("command", Json.str "click")])) none "u4" 3
        true).2 =
      some ⟨(load_commands (none : Option Data)).new_commands ++
              [⟨"u4", .str "click", .obj [], 3, none⟩],
            (load_commands (none : Option Data)).history⟩ :=
  ⟨rfl, (C6_amended (some (.obj [("command", Json.str "click")])) none "u4" 3).1
    ⟨"u4", .str "click", .obj [], 3, none⟩ rfl⟩

/-- Claim C8, counterexample.  The claim states every persistence read
failure leaves the operation's result as if persistence had succeeded.  With
a stored queue holding one command, a read that fails (missing/corrupt file,
modelled by `none`) makes `read_first` answer the empty list instead of that
command: the result differs from the successful-persistence run. -/
theorem C8_counterexample :
    (read_first (some ⟨[⟨"z", .str "click", .obj [], 0, none⟩], []⟩)
        (.num 1) "new_commands" none).1 =
      .ok [⟨"z", .str "click", .obj [], 0, none⟩] ∧
    (read_first none (.num 1) "new_commands" none).1 = .ok [] ∧
    ReadResult.ok [⟨"z", .str "click", .obj [], 0, none⟩] ≠ ReadResult.ok [] := by
  refine ⟨rfl, rfl, fun h => ?_⟩
  injection h with h1
  exact List.cons_ne_nil _ _ h1

/-- A missing or unreadable file makes `read_first` answer exactly as an
empty stored queue would. -/
lemma read_first_result_empty (count : CountParam) (source : String)
    (ctype : Option String) :
    (read_first none count source ctype).1 =
      (read_first (some ⟨[], []⟩) count source ctype).1 := by
  unfold read_first
  repeat' split
  all_goals rfl

/-- Claim C8, amended.  Write failures are caught (and logged) and never
change an operation's response; they only leave the old file contents in
place.  Read failures (missing or corrupt file) are caught and do not abort
the operation, but the operation then proceeds from the empty default state
rather than from the previously persisted contents, behaving exactly as on an
empty queue. -/
theorem C8_amended (body : Option Json) (file : Option Data) (fresh : String)
    (now : Nat) (ids : List Json) (count : CountParam) (source : String)
    (ctype : Option String) (wok : Bool) :
    (add_command body file fresh now false).1 =
      (add_command body file fresh now true).1 ∧
    (add_command body file fresh now false).2 = file ∧
    (move_to_history body file now false).1 =
      (move_to_history body file now true).1 ∧
    (move_to_history body file now false).2 = file ∧
    move_commands_to_history ids file now false = file ∧
    (add_command body none fresh now wok).1 =
      (add_command body (some ⟨[], []⟩) fresh now wok).1 ∧
    (read_first none count source ctype).1 =
      (read_first (some ⟨[], []⟩) count source ctype).1 :=
  ⟨add_result_indep body file file fresh now false true,
   add_file_of_write_failure body file fresh now,
   move_result_indep body file now false true,
   move_file_of_write_failure body file now,
   moveMany_file_of_write_failure ids file now,
   add_result_indep body none (some ⟨[], []⟩) fresh now wok wok,
   read_first_result_empty count source ctype⟩
